import Mathlib

/-!
Verification of the agentic-qa asynchronous test-execution pipeline.

Shallow embedding of the Python backend:
* `app/agent/strategies.py` — the Selector / DOM / Vision strategy chain,
* `app/agent/actions.py`    — per-action execution and the fallback loop,
* `app/agent/executor.py`   — step validation and the run engine,
* `app/redis_client.py`     — the per-run event log (append / read),
* `scripts/run_worker.py`   — the worker retry loop and stuck-run recovery.

Browser, database and Redis effects are modelled as explicit oracles
(`Page`, `DbBehavior`, per-attempt engine environments); machine strings are
Lean `String`s with Python string primitives re-implemented character-wise.
-/

namespace AQ

/-- The single-quote character, used inside message strings. -/
def sq : String := String.singleton (Char.ofNat 39)

/-- Python `str.isspace` members relevant to `str.strip()` / `str.split()`. -/
def pyIsSpace (c : Char) : Bool :=
  c = ' ' || c = Char.ofNat 9 || c = Char.ofNat 10 || c = Char.ofNat 13 ||
  c = Char.ofNat 11 || c = Char.ofNat 12

/-- Drop leading and trailing characters satisfying `p` (Python `str.strip(set)`). -/
def stripChars (p : Char → Bool) (l : List Char) : List Char :=
  ((l.dropWhile p).reverse.dropWhile p).reverse

/-- Python `str.strip()` (whitespace strip). -/
def pyStrip (s : String) : String := String.mk (stripChars pyIsSpace s.data)

/-- Python `str.lower()` (character-wise). -/
def pyLower (s : String) : String := String.mk (s.data.map Char.toLower)

/-- Helper for `pySplit`: current word accumulator holds reversed characters. -/
def pySplitGo : List Char → List Char → List String
  | [], acc => if acc.isEmpty then [] else [String.mk acc.reverse]
  | c :: rest, acc =>
    if pyIsSpace c then
      if acc.isEmpty then pySplitGo rest []
      else String.mk acc.reverse :: pySplitGo rest []
    else pySplitGo rest (c :: acc)

/-- Python `str.split()` with no argument: split on whitespace runs, no empties. -/
def pySplit (s : String) : List String := pySplitGo s.data []

/-- Substring containment on character lists (Python `needle in hay`). -/
def containsSub (needle : List Char) : List Char → Bool
  | [] => needle.isEmpty
  | c :: rest => needle.isPrefixOf (c :: rest) || containsSub needle rest

/-- Python `needle in hay` for strings. -/
def substrB (needle hay : String) : Bool := containsSub needle.data hay.data

/-- Python `s[:n]` (character slice). -/
def strTake (s : String) (n : Nat) : String := String.mk (s.data.take n)

/-- Quote characters stripped by `strip("\x22'")` in `extract_target_text`. -/
def isQuoteChar (c : Char) : Bool := c.toNat = 34 || c.toNat = 39

/-! ## strategies.py -/

/-- `ACTION_VERBS` from strategies.py. -/
def ACTION_VERBS : List String := ["click", "fill", "enter", "type", "select", "choose"]

/-- `ARTICLES` from strategies.py. -/
def ARTICLES : List String := ["the", "a", "an"]

/-- `extract_target_text`: remove action verbs and articles, strip quotes and
whitespace.  The Python `isinstance(instruction, str)` guard is vacuous in the
embedding (instructions are strings). -/
def extract_target_text (instruction : String) : String :=
  if instruction = "" then ""
  else
    let text := pyStrip instruction
    let words := pySplit text
    let filtered := words.filter
      (fun w => !(ACTION_VERBS.contains (pyLower w)) && !(ARTICLES.contains (pyLower w)))
    let result := pyStrip (String.intercalate " " filtered)
    String.mk (stripChars pyIsSpace (stripChars isQuoteChar result.data))

/-- `determine_element_type`: keyword heuristic mapping an instruction to
`(locator_type, role)`. -/
def determine_element_type (instruction : String) : String × String :=
  if instruction = "" then ("text", "")
  else
    let lower := pyLower instruction
    if substrB "button" lower then ("role", "button")
    else if substrB "input" lower || substrB "field" lower then ("label", "")
    else if substrB "link" lower then ("role", "link")
    else ("text", "")

/-- A Playwright operation the strategies may perform on the page. -/
inductive PageOp where
  | goto (target : String)
  | clickSel (selector : String)
  | fillSel (selector : String) (value : String)
  | locClick (locatorType role text : String)
  | locFill (locatorType role text value : String)
  deriving DecidableEq

/-- Oracle for the browser page: which operations succeed (with which exception
message on failure), and what `page.content()` returns. -/
structure Page where
  run : PageOp → Except String Unit
  content : Except String String

/-- Result dict returned by a strategy on success (`success` key is always
`True` there and is dropped). -/
structure StratResult where
  strategy : String
  self_healed : Bool
  deriving DecidableEq

/-- A test step: Python dict with optional keys; a missing string key is the
empty string, `hasValue` records whether the `"value"` key is present. -/
structure Step where
  action : String := ""
  advanced_selector : String := ""
  instruction : String := ""
  value : String := ""
  hasValue : Bool := false
  target : String := ""
  expected : String := ""
  deriving DecidableEq

/-- `SelectorStrategy.try_execute` from strategies.py. -/
def SelectorStrategy.try_execute (page : Page) (step : Step) (action : String)
    (value : String) : Option StratResult :=
  let selector := pyStrip step.advanced_selector
  if selector = "" then none
  else if action = "click" then
    match page.run (PageOp.clickSel selector) with
    | Except.ok _ => some { strategy := "selector", self_healed := false }
    | Except.error _ => none
  else if action = "fill" then
    match page.run (PageOp.fillSel selector value) with
    | Except.ok _ => some { strategy := "selector", self_healed := false }
    | Except.error _ => none
  else none

/-- `DOMStrategy.try_execute` from strategies.py. -/
def DOMStrategy.try_execute (page : Page) (step : Step) (action : String)
    (value : String) : Option StratResult :=
  let instruction := pyStrip step.instruction
  if instruction = "" then none
  else
    let text := extract_target_text instruction
    if text = "" then none
    else
      let lt := determine_element_type instruction
      if action = "click" then
        match page.run (PageOp.locClick lt.1 lt.2 text) with
        | Except.ok _ => some { strategy := "dom", self_healed := true }
        | Except.error _ => none
      else if action = "fill" then
        match page.run (PageOp.locFill lt.1 lt.2 text value) with
        | Except.ok _ => some { strategy := "dom", self_healed := true }
        | Except.error _ => none
      else none

/-- `VisionStrategy.try_execute`: placeholder, always returns `None`. -/
def VisionStrategy.try_execute (_page : Page) (_step : Step) (_action : String)
    (_value : String) : Option StratResult := none

/-! ## actions.py -/

/-- Result dict of an action handler.  Fields absent from a given Python dict
keep their defaults; `error = none` models an absent or `None` error key. -/
structure ActionResult where
  status : String
  strategy : String := ""
  self_healed : Bool := false
  attempts : Nat := 0
  error : Option String := none
  deriving DecidableEq

/-- One entry of the strategy lists in `execute_click` / `execute_fill`. -/
def Strategy : Type := String × (Page → Step → String → String → Option StratResult)

/-- The fallback list `[("selector", ...), ("dom", ...), ("vision", ...)]`. -/
def strategyChain : List Strategy :=
  [("selector", SelectorStrategy.try_execute),
   ("dom", DOMStrategy.try_execute),
   ("vision", VisionStrategy.try_execute)]

/-- The `for strategy_name, strategy_cls in strategies:` loop shared by
`execute_click` and `execute_fill`: `attempts` is incremented for every
strategy reached, whether or not it was applicable. -/
def runStrategyChain (page : Page) (step : Step) (action value : String) :
    List Strategy → Nat → List String → ActionResult
  | [], attempts, errors =>
    { status := "failed", strategy := "unknown", self_healed := false,
      attempts := attempts,
      error := some ("All strategies failed: " ++ String.intercalate "; " errors) }
  | s :: rest, attempts, errors =>
    let attempts := attempts + 1
    match s.2 page step action value with
    | some r =>
      { status := "passed", strategy := r.strategy, self_healed := r.self_healed,
        attempts := attempts, error := none }
    | none =>
      runStrategyChain page step action value rest attempts
        (errors ++ [s.1 ++ ": failed"])

/-- `execute_click` from actions.py. -/
def execute_click (page : Page) (step : Step) : ActionResult :=
  runStrategyChain page step "click" "" strategyChain 0 []

/-- `execute_fill` from actions.py (`value = step.get("value", "")`). -/
def execute_fill (page : Page) (step : Step) : ActionResult :=
  runStrategyChain page step "fill" (if step.hasValue then step.value else "")
    strategyChain 0 []

/-- `execute_navigate` from actions.py. -/
def execute_navigate (page : Page) (step : Step) (base_url : String) : ActionResult :=
  let target := if pyStrip step.target = "" then base_url else pyStrip step.target
  if target = "" then
    { status := "failed",
      error := some ("navigate requires " ++ sq ++ "target" ++ sq ++ " or test url") }
  else
    match page.run (PageOp.goto target) with
    | Except.ok _ => { status := "passed" }
    | Except.error e => { status := "failed", error := some e }

/-- `execute_verify` from actions.py: fails fast on empty/whitespace expected
text before fetching page content; otherwise checks substring containment of
the full expected text and truncates it to 50 characters only in the failure
message. -/
def execute_verify (page : Page) (step : Step) : ActionResult :=
  let expected := step.expected
  if pyStrip expected = "" then
    { status := "failed", error := some ("verify requires " ++ sq ++ "expected" ++ sq) }
  else
    match page.content with
    | Except.error e => { status := "failed", error := some e }
    | Except.ok content =>
      if substrB expected content then { status := "passed" }
      else
        { status := "failed",
          error := some ("Expected text " ++ sq ++ strTake expected 50 ++ "..." ++ sq
            ++ " not found in page") }

/-- `execute_action` from actions.py: dispatch on the action name. -/
def execute_action (action : String) (page : Page) (step : Step)
    (base_url : String) : ActionResult :=
  if action = "navigate" then execute_navigate page step base_url
  else if action = "click" then execute_click page step
  else if action = "fill" then execute_fill page step
  else if action = "verify" then execute_verify page step
  else { status := "failed", error := some ("Unknown action: " ++ action) }

/-! ## executor.py -/

/-- `TOTAL_TIMEOUT_SEC` from executor.py. -/
def TOTAL_TIMEOUT_SEC : Nat := 300

/-- `_validate_step` from executor.py: returns the error message or `none`. -/
def _validate_step (step : Step) (idx : Nat) : Option String :=
  let action := step.action
  if action = "" then
    some ("Step " ++ toString (idx + 1) ++ ": missing " ++ sq ++ "action" ++ sq)
  else if !(["navigate", "click", "fill", "verify"].contains action) then
    some ("Step " ++ toString (idx + 1) ++ ": unknown action " ++ sq ++ action ++ sq)
  else if action = "navigate" then none
  else if action = "click" then
    if pyStrip step.advanced_selector = "" then
      some ("Step " ++ toString (idx + 1) ++ ": click requires " ++ sq
        ++ "advanced_selector" ++ sq)
    else none
  else if action = "fill" then
    if pyStrip step.advanced_selector = "" then
      some ("Step " ++ toString (idx + 1) ++ ": fill requires " ++ sq
        ++ "advanced_selector" ++ sq)
    else if !step.hasValue then
      some ("Step " ++ toString (idx + 1) ++ ": fill requires " ++ sq ++ "value" ++ sq)
    else none
  else
    if pyStrip step.expected = "" then
      some ("Step " ++ toString (idx + 1) ++ ": verify requires " ++ sq
        ++ "expected" ++ sq)
    else none

/-- The validation loop of `execute_test`: first invalid step (index, message). -/
def firstValidationError : List Step → Nat → Option (Nat × String)
  | [], _ => none
  | s :: rest, i =>
    match _validate_step s i with
    | some err => some (i, err)
    | none => firstValidationError rest (i + 1)

/-- Payloads of run events, merged over the JSON dict shapes the engine emits
(fields a given event does not set keep their defaults). -/
structure EventData where
  message : String := ""
  status : String := ""
  step : Option Nat := none
  data_url : String := ""
  duration_ms : Nat := 0
  test_name : String := ""
  steps_completed : Nat := 0
  deriving DecidableEq

/-- A run event as appended to the per-run stream: type and payload. -/
structure RunEvent where
  type : String
  data : EventData
  deriving DecidableEq

/-- One persisted entry of the run's `step_results` list. -/
structure StepResult where
  step : Nat
  status : String
  strategy : String
  self_healed : Bool
  duration_ms : Nat
  attempts : Nat
  error : Option String
  deriving DecidableEq

/-- Database call outcome oracle: succeeds, or raises a (transient?) exception. -/
inductive DbBehavior where
  | ok
  | fail (transient : Bool) (msg : String)
  deriving DecidableEq

/-- Environment oracle for one engine execution: the page behaviour before each
step, screenshot capture results, the wall-clock reading of the pre-step
deadline check (seconds since run start), step/total durations, the browser
setup outcome, and the two database updates the engine awaits outside its
`try` block. -/
structure EngineEnv where
  pageAt : Nat → Page
  shotAt : Nat → Option String
  elapsedBefore : Nat → Nat
  stepDurationMs : Nat → Nat
  totalDurationMs : Nat
  launch : Except String Unit
  dbRunning : DbBehavior
  dbComplete : DbBehavior

/-- Mutable loop state of `execute_test`. -/
structure LoopState where
  trace : List RunEvent := []
  screenshots : List (Nat × String) := []
  step_results : List StepResult := []
  failed_step : Option Nat := none
  final_error : Option String := none
  deriving DecidableEq

/-- The `log` event appended before executing step `i`
(`instruction = step.get("instruction", action)`). -/
def execLogEvent (i : Nat) (s : Step) : RunEvent :=
  { type := "log",
    data := { step := some i,
              message := "Executing " ++ s.action ++ ": "
                ++ (if s.instruction = "" then s.action else s.instruction) } }

/-- The `log` event appended after a step completes. -/
def stepDoneEvent (i : Nat) (r : ActionResult) (dur : Nat) : RunEvent :=
  { type := "log",
    data := { step := some i,
              message := if r.status = "passed" then "Step completed"
                         else "Step failed: " ++ r.error.getD "",
              duration_ms := dur, status := r.status } }

/-- The `screenshot` event appended after a successful capture. -/
def shotEvent (i : Nat) (url : String) : RunEvent :=
  { type := "screenshot", data := { step := some i, data_url := url } }

/-- The `log` event opening a run. -/
def startLogEvent (test_name : String) : RunEvent :=
  { type := "log", data := { message := "Starting test execution", test_name := test_name } }

/-- The terminal `complete` event of `execute_test`. -/
def completeEvent (status : String) (dur done : Nat) (msg : String) : RunEvent :=
  { type := "complete",
    data := { status := status, duration_ms := dur, steps_completed := done,
              message := msg } }

/-- The `error` event of a validation failure. -/
def validationErrorEvent (msg : String) (i : Nat) : RunEvent :=
  { type := "error", data := { message := msg, step := some i } }

/-- The `error` event of the empty-definition path. -/
def noStepsEvent : RunEvent :=
  { type := "error", data := { message := "No steps in test definition" } }

/-- The `for i, step in enumerate(steps)` loop of `execute_test`: checks the
total deadline before each step, logs, executes the action, records a
hard-coded `selector / not self-healed / 1 attempt` step result, captures a
best-effort screenshot, and stops on the first failed step. -/
def runSteps (env : EngineEnv) (test_url : String) :
    List Step → Nat → LoopState → LoopState
  | [], _, st => st
  | s :: rest, i, st =>
    if TOTAL_TIMEOUT_SEC < env.elapsedBefore i then
      { st with final_error := some "Total test timeout (5 min) exceeded",
                failed_step := some i }
    else
      let trace1 := st.trace ++ [execLogEvent i s]
      let result := execute_action s.action (env.pageAt i) s test_url
      let dur := env.stepDurationMs i
      let sr : StepResult :=
        { step := i, status := result.status, strategy := "selector",
          self_healed := false, duration_ms := dur, attempts := 1,
          error := result.error }
      let results1 := st.step_results ++ [sr]
      let trace2 := trace1 ++ [stepDoneEvent i result dur]
      let shotTrace :=
        match env.shotAt i with
        | some url => (trace2 ++ [shotEvent i url], st.screenshots ++ [(i, url)])
        | none => (trace2, st.screenshots)
      if result.status = "failed" then
        { trace := shotTrace.1, screenshots := shotTrace.2, step_results := results1,
          failed_step := some i, final_error := some (result.error.getD "Step failed") }
      else
        runSteps env test_url rest (i + 1)
          { trace := shotTrace.1, screenshots := shotTrace.2, step_results := results1,
            failed_step := st.failed_step, final_error := st.final_error }

/-- Outcome of one `AgentExecutor.execute_test` call: the events it appended
(in order), the returned status/error, the persisted step results, whether the
Playwright block was entered, and — when a database update outside the `try`
block raised — the propagated exception as `(transient?, message)`. -/
structure ExecOutput where
  trace : List RunEvent
  status : String := ""
  error : Option String := none
  step_results : List StepResult := []
  failed_step : Option Nat := none
  browserOpened : Bool := false
  raised : Option (Bool × String) := none
  deriving DecidableEq

/-- `AgentExecutor.execute_test` from executor.py. -/
def execute_test (env : EngineEnv) (steps : List Step)
    (test_url test_name : String) : ExecOutput :=
  if steps = [] then
    { trace := [noStepsEvent], status := "failed", error := some "No steps" }
  else
    match firstValidationError steps 0 with
    | some ie =>
      { trace := [validationErrorEvent ie.2 ie.1], status := "failed",
        error := some ie.2 }
    | none =>
      let trace0 := [startLogEvent test_name]
      match env.dbRunning with
      | DbBehavior.fail t m => { trace := trace0, raised := some (t, m) }
      | DbBehavior.ok =>
        let stF :=
          match env.launch with
          | Except.ok _ => runSteps env test_url steps 0 {}
          | Except.error e =>
            { (({} : LoopState)) with final_error := some e, failed_step := some 0 }
        let status := match stF.final_error with | none => "passed" | some _ => "failed"
        let trace := trace0 ++ stF.trace ++
          [completeEvent status env.totalDurationMs stF.step_results.length
            (stF.final_error.getD "Test completed")]
        { trace := trace, status := status, error := stF.final_error,
          step_results := stF.step_results, failed_step := stF.failed_step,
          browserOpened := true,
          raised := match env.dbComplete with
                    | DbBehavior.ok => none
                    | DbBehavior.fail t m => some (t, m) }

/-! ## redis_client.py — the per-run event stream

A run's stream is a list of `(entryId, event)` pairs in append order; Redis
assigns strictly increasing entry ids, modelled as `max existing id + 1`. -/

/-- The id Redis assigns to the next appended entry of a stream. -/
def nextEventId (log : List (Nat × RunEvent)) : Nat :=
  (log.map Prod.fst).foldr max 0 + 1

/-- `append_run_event`: XADD to the run's stream. -/
def append_run_event (log : List (Nat × RunEvent)) (e : RunEvent) :
    List (Nat × RunEvent) :=
  log ++ [(nextEventId log, e)]

/-- `read_run_events`: XREAD of up to `count` entries with id greater than
`after_id`, in stream order. -/
def read_run_events (log : List (Nat × RunEvent)) (after_id : Nat)
    (count : Nat) : List (Nat × RunEvent) :=
  (log.filter (fun p => after_id < p.1)).take count

/-- Append a trace of events (in order) to a stream. -/
def appendTrace (log : List (Nat × RunEvent)) (tr : List RunEvent) :
    List (Nat × RunEvent) :=
  tr.foldl append_run_event log

/-! ## scripts/run_worker.py -/

/-- Outcome of one `process_job` attempt, as the worker sees it: success, or a
raised exception with its `_is_transient_error` classification and message. -/
inductive AttemptOutcome where
  | success
  | raises (transient : Bool) (msg : String)
  deriving DecidableEq

/-- Whether an attempt outcome is a transiently-classified exception. -/
def transientRaise : AttemptOutcome → Bool
  | AttemptOutcome.raises true _ => true
  | _ => false

/-- State when the worker's `for attempt in range(3)` loop exits: whether the
job was acked (only the success path acks), the `last_exc` variable, and
whether the loop's `else:` clause ran (loop finished with no `break`). -/
structure JobLoopResult where
  acked : Bool
  last_exc : Option (Bool × String)
  exhausted : Bool
  deriving DecidableEq

/-- The worker's retry loop (`for attempt in range(3)`), shutdown not
requested: success acks and breaks; a transient exception with `attempt < 2`
sleeps and retries; any other exception breaks.  `fuel` is the number of
iterations `range(3)` still yields. -/
def jobLoop (outcomes : Nat → AttemptOutcome) :
    Nat → Nat → Option (Bool × String) → JobLoopResult
  | _, 0, lastExc => { acked := false, last_exc := lastExc, exhausted := true }
  | attempt, fuel + 1, lastExc =>
    match outcomes attempt with
    | AttemptOutcome.success =>
      { acked := true, last_exc := lastExc, exhausted := false }
    | AttemptOutcome.raises t m =>
      if attempt < 2 && t then jobLoop outcomes (attempt + 1) fuel (some (t, m))
      else { acked := false, last_exc := some (t, m), exhausted := false }

/-- Observable effects of the worker's handling of one claimed job: whether the
queue delivery was acknowledged, the message of the `error` run event it
emitted (if any), and the error written to `test_runs` as a `failed` terminal
state (if any). -/
structure JobHandling where
  acked : Bool
  errorEvent : Option String
  dbFailedWrite : Option String
  deriving DecidableEq

/-- The worker's whole per-job block (run_worker.py `main`, lines 239–324):
the retry loop, the loop's `else:` clause ("exhausted 3 attempts"), and the
post-loop non-transient failure handler guarded by
`last_exc and not failure_handled_in_loop and not _is_transient_error(last_exc)`. -/
def handle_job (outcomes : Nat → AttemptOutcome) : JobHandling :=
  let r := jobLoop outcomes 0 3 none
  if r.exhausted then
    match r.last_exc with
    | some e => { acked := r.acked, errorEvent := some e.2, dbFailedWrite := some e.2 }
    | none => { acked := r.acked, errorEvent := none, dbFailedWrite := none }
  else
    match r.last_exc with
    | some e =>
      if !e.1 then { acked := r.acked, errorEvent := some e.2, dbFailedWrite := some e.2 }
      else { acked := r.acked, errorEvent := none, dbFailedWrite := none }
    | none => { acked := r.acked, errorEvent := none, dbFailedWrite := none }

/-- The `error` run event the worker (or recovery sweep) appends. -/
def workerErrorEvent (msg : String) : RunEvent :=
  { type := "error", data := { message := msg } }

/-- The events appended to one run's stream by the worker's per-job block when
each attempt executes the engine with environment `envAt attempt` (the test
row exists): the engine's own trace per attempt, plus the worker's `error`
event on a non-transient exception.  Mirrors `jobLoop` with the traces
accumulated. -/
def workerJobLog (envAt : Nat → EngineEnv) (steps : List Step)
    (test_url test_name : String) :
    Nat → Nat → Option (Bool × String) → List RunEvent → List RunEvent
  | _, 0, lastExc, log =>
    match lastExc with
    | some e => log ++ [workerErrorEvent e.2]
    | none => log
  | attempt, fuel + 1, _, log =>
    let out := execute_test (envAt attempt) steps test_url test_name
    let log1 := log ++ out.trace
    match out.raised with
    | none => log1
    | some (t, m) =>
      if attempt < 2 && t then
        workerJobLog envAt steps test_url test_name (attempt + 1) fuel (some (t, m)) log1
      else if !t then log1 ++ [workerErrorEvent m]
      else log1

/-- All events a run's stream receives across the worker's handling of its
job. -/
def worker_run_log (envAt : Nat → EngineEnv) (steps : List Step)
    (test_url test_name : String) : List RunEvent :=
  workerJobLog envAt steps test_url test_name 0 3 none []

/-- A persisted `test_runs` row (the fields the recovery sweep touches). -/
structure RunRecord where
  id : String
  status : String
  started_at : Nat
  completed_at : Option Nat := none
  error : Option String := none
  deriving DecidableEq

/-- The sweep's SQL condition: `status = 'running' AND started_at < NOW() -
interval`. -/
def stuckCondition (now interval_sec : Nat) (r : RunRecord) : Bool :=
  r.status = "running" && r.started_at + interval_sec < now

/-- `recover_stuck_runs`: one pass over the store at time `now` (seconds) with
stuck timeout `timeout_min` minutes; marks each stuck run failed with error
`Stuck - timeout` and appends an `error` event to its stream. -/
def recover_stuck_runs (now timeout_min : Nat) (db : List RunRecord)
    (logs : String → List (Nat × RunEvent)) :
    List RunRecord × (String → List (Nat × RunEvent)) :=
  let interval_sec := timeout_min * 60
  ( db.map (fun r =>
      if stuckCondition now interval_sec r then
        { r with status := "failed", error := some "Stuck - timeout",
                 completed_at := some now }
      else r),
    fun rid =>
      if (db.filter (stuckCondition now interval_sec)).any (fun r => r.id = rid) then
        append_run_event (logs rid) (workerErrorEvent "Stuck run recovered - timeout")
      else logs rid )

/-! ## Concrete oracles used by counterexamples and witnesses -/

/-- A page on which only the semantic text locator `Login` responds. -/
def loginOnlyPage : Page :=
  { run := fun op =>
      match op with
      | PageOp.locClick "text" "" "Login" => Except.ok ()
      | _ => Except.error "not found"
    , content := Except.error "unused" }

/-- A click step carrying only an instruction (no explicit locator). -/
def loginClickStep : Step := { action := "click", instruction := "click Login" }

/-- A page on which every operation succeeds and the content is fixed. -/
def happyPage : Page :=
  { run := fun _ => Except.ok (), content := Except.ok "Example Domain" }

/-- A plain navigate step. -/
def navStep : Step := { action := "navigate", target := "https://example.com" }

/-- A benign engine environment (everything succeeds, no deadline pressure). -/
def benignEnv : EngineEnv :=
  { pageAt := fun _ => happyPage, shotAt := fun _ => none,
    elapsedBefore := fun _ => 0, stepDurationMs := fun _ => 5,
    totalDurationMs := 100, launch := Except.ok (),
    dbRunning := DbBehavior.ok, dbComplete := DbBehavior.ok }

/-- `benignEnv` whose terminal database update raises a transient error. -/
def dbFlakyEnv : EngineEnv :=
  { benignEnv with dbComplete := DbBehavior.fail true "connection reset" }

/-! ## Theorems -/

/-- C1: a click step with only an instruction (empty `advanced_selector`) that
succeeds via the DOM (Semantic) strategy.  The claim — and the repository's own
test `test_execute_click_instruction_only_dom_succeeds` — require
`attempts == 1` and `self_healed == False`; the code instead counts the
skipped Selector strategy as an attempt (`attempts += 1` before applicability
is known) and reports DOMStrategy's hard-coded `self_healed: True`, yielding
`attempts = 2` and `self_healed = true`. -/
theorem C1_instruction_only_dom_success_behavior :
    (execute_click loginOnlyPage loginClickStep).status = "passed"
    ∧ (execute_click loginOnlyPage loginClickStep).strategy = "dom"
    ∧ (execute_click loginOnlyPage loginClickStep).attempts = 2
    ∧ (execute_click loginOnlyPage loginClickStep).self_healed = true := by
  decide

/-- C9: `execute_verify` fails fast on empty/whitespace expected text with a
result that does not depend on the page (so the page content is never
fetched); otherwise it fetches the content and passes exactly when the full,
untruncated expected text occurs in it, truncating the expected text to a
50-character preview only inside the failure message. -/
theorem C9_verify_semantics (page : Page) (step : Step) :
    (pyStrip step.expected = "" →
      execute_verify page step =
        { status := "failed",
          error := some ("verify requires " ++ sq ++ "expected" ++ sq) }
      ∧ ∀ page2, execute_verify page2 step = execute_verify page step)
    ∧ (pyStrip step.expected ≠ "" → ∀ content, page.content = Except.ok content →
      ((execute_verify page step).status = "passed"
        ↔ substrB step.expected content = true)
      ∧ ((execute_verify page step).status = "failed" →
        (execute_verify page step).error =
          some ("Expected text " ++ sq ++ strTake step.expected 50 ++ "..." ++ sq
            ++ " not found in page"))) := by
  constructor
  · intro h
    refine ⟨by simp [execute_verify, h], fun page2 => by simp [execute_verify, h]⟩
  · intro h content hc
    by_cases hsub : substrB step.expected content
    · constructor
      · simp [execute_verify, h, hc, hsub]
      · intro hfail
        simp [execute_verify, h, hc, hsub] at hfail
    · constructor
      · simp [execute_verify, h, hc, hsub]
      · intro _
        simp [execute_verify, h, hc, hsub]

/-- C9 witness: the theorem applied at concrete inputs. -/
theorem C9_verify_semantics_witness :
    (execute_verify happyPage { action := "verify", expected := " " }).status = "failed"
    ∧ (execute_verify happyPage { action := "verify", expected := "ample Dom" }).status
        = "passed" := by
  constructor
  · have h := (C9_verify_semantics happyPage { action := "verify", expected := " " }).1
      (by decide)
    rw [h.1]
  · have h := (C9_verify_semantics happyPage
      { action := "verify", expected := "ample Dom" }).2 (by decide) "Example Domain" rfl
    exact h.1.mpr (by decide)

/-- In a stream with strictly increasing ids, keeping the entries whose id
exceeds the id at position `n` drops exactly the first `n + 1` entries. -/
theorem filter_nth_sorted (log : List (Nat × RunEvent)) :
    log.Pairwise (fun p q => p.1 < q.1) →
    ∀ (n : Nat) (hn : n < log.length),
      log.filter (fun p => (log.get ⟨n, hn⟩).1 < p.1) = log.drop (n + 1) := by
  induction log with
  | nil => intro _ n hn; simp at hn
  | cons p rest ih =>
    intro hsort n hn
    rw [List.pairwise_cons] at hsort
    cases n with
    | zero =>
      have hirr : ¬ (p.1 < p.1) := lt_irrefl _
      simp only [List.get, List.filter_cons, List.drop_succ_cons, List.drop_zero,
        hirr, decide_eq_true_eq, if_false, decide_eq_false hirr]
      exact List.filter_eq_self.mpr (fun q hq => decide_eq_true (hsort.1 q hq))
    | succ m =>
      have hm : m < rest.length := by simpa using hn
      have hlt : p.1 < (rest.get ⟨m, hm⟩).1 := hsort.1 _ (rest.get_mem _ _)
      have hnot : ¬ ((rest.get ⟨m, hm⟩).1 < p.1) :=
        fun h => absurd (lt_trans hlt h) (lt_irrefl _)
      simp only [List.get, List.filter_cons, List.drop_succ_cons,
        decide_eq_false hnot, if_false]
      exact ih hsort.2 m hm

/-- C8: for a run's event stream (strictly increasing ids), reading with
`afterId` equal to the id of the event at position `n` returns exactly the
events at positions `n+1` through the end, in order, up to the read limit. -/
theorem C8_read_resumption (log : List (Nat × RunEvent)) (n count : Nat)
    (hsort : log.Pairwise (fun p q => p.1 < q.1)) (hn : n < log.length) :
    read_run_events log (log.get ⟨n, hn⟩).1 count = (log.drop (n + 1)).take count := by
  unfold read_run_events
  rw [filter_nth_sorted log hsort n hn]

/-- A concrete three-event stream. -/
def sampleLog : List (Nat × RunEvent) :=
  [(1, startLogEvent "T"), (2, workerErrorEvent "x"), (5, noStepsEvent)]

/-- C8 witness: the theorem applied to a concrete stream at `n = 1`. -/
theorem C8_read_resumption_witness :
    read_run_events sampleLog (sampleLog.get ⟨1, by decide⟩).1 100
      = (sampleLog.drop 2).take 100 :=
  C8_read_resumption sampleLog 1 100 (by decide) (by decide)

/-- C7: one pass of the recovery sweep at time `now` forces every run that is
still `running` and started more than the stuck timeout ago to `failed` with
the stuck/timeout error (`Stuck - timeout`), and appends a terminal `error`
event to that run's stream — no worker involvement is modelled or required. -/
theorem C7_recovery_sweep (now timeout_min : Nat) (db : List RunRecord)
    (logs : String → List (Nat × RunEvent)) (r : RunRecord)
    (hmem : r ∈ db) (hrun : r.status = "running")
    (hstuck : r.started_at + timeout_min * 60 < now) :
    ({ r with status := "failed", error := some "Stuck - timeout",
              completed_at := some now } ∈ (recover_stuck_runs now timeout_min db logs).1)
    ∧ ∃ ev : RunEvent, ev.type = "error" ∧
        (recover_stuck_runs now timeout_min db logs).2 r.id
          = logs r.id ++ [(nextEventId (logs r.id), ev)] := by
  have hcond : stuckCondition now (timeout_min * 60) r = true := by
    simp [stuckCondition, hrun, hstuck]
  constructor
  · exact List.mem_map.mpr ⟨r, hmem, by simp [recover_stuck_runs, hcond]⟩
  · refine ⟨workerErrorEvent "Stuck run recovered - timeout", rfl, ?_⟩
    have hany : (db.filter (stuckCondition now (timeout_min * 60))).any
        (fun q => q.id = r.id) = true :=
      List.any_eq_true.mpr ⟨r, List.mem_filter.mpr ⟨hmem, hcond⟩, by simp⟩
    simp [recover_stuck_runs, hany, append_run_event]
    exact ⟨r, hmem, hcond, rfl⟩

/-- C7 witness: the theorem applied to a concrete store with one stuck run. -/
theorem C7_recovery_sweep_witness :
    ({ id := "r1", status := "failed", started_at := 100,
       completed_at := some 1000, error := some "Stuck - timeout" } : RunRecord)
      ∈ (recover_stuck_runs 1000 10
          [{ id := "r1", status := "running", started_at := 100 }]
          (fun _ => [])).1 :=
  (C7_recovery_sweep 1000 10 [{ id := "r1", status := "running", started_at := 100 }]
    (fun _ => []) { id := "r1", status := "running", started_at := 100 }
    (by simp) rfl (by decide)).1

/-- A transiently-classified attempt outcome is `raises true m` for some `m`. -/
theorem transientRaise_eq (x : AttemptOutcome) (h : transientRaise x = true) :
    ∃ m, x = AttemptOutcome.raises true m := by
  cases x with
  | success => simp [transientRaise] at h
  | raises t m =>
    cases t with
    | false => simp [transientRaise] at h
    | true => exact ⟨m, rfl⟩

/-- C2 counterexample: the claim — a job whose processing raises a permanent
exception, or exhausts the 3 attempts transiently, gets a Failed write, an
error event, and an acknowledgement — is false: on a permanent exception the
worker writes the failure and emits the event but never acks (XACK is reached
only after a successful `process_job`). -/
theorem C2_failed_job_ack_counterexample :
    ¬ (∀ o : Nat → AttemptOutcome,
        ((∃ a, a ≤ 2 ∧ (∃ m, o a = AttemptOutcome.raises false m) ∧
            ∀ b, b < a → transientRaise (o b) = true)
          ∨ (∀ a, a ≤ 2 → transientRaise (o a) = true)) →
        (handle_job o).dbFailedWrite.isSome = true
          ∧ (handle_job o).errorEvent.isSome = true
          ∧ (handle_job o).acked = true) := by
  intro h
  have hc := h (fun _ => AttemptOutcome.raises false "db write refused")
    (Or.inl ⟨0, by omega, ⟨"db write refused", rfl⟩,
      fun b hb => absurd hb (Nat.not_lt_zero b)⟩)
  exact absurd hc.2.2 (by decide)

/-- C2 amended: a permanent exception (after only transient ones) makes the
worker write the Failed state and emit the error event but leaves the delivery
un-acknowledged; three transient failures in a row exhaust the loop with no
write, no event, and no acknowledgement (the `for`'s `else:` branch is
unreachable because the last attempt's exception always `break`s).  Only a
successful attempt acknowledges. -/
theorem C2_amended_failure_handling (o : Nat → AttemptOutcome) :
    (∀ a m, a ≤ 2 → o a = AttemptOutcome.raises false m →
      (∀ b, b < a → transientRaise (o b) = true) →
      handle_job o = { acked := false, errorEvent := some m, dbFailedWrite := some m })
    ∧ ((∀ a, a ≤ 2 → transientRaise (o a) = true) →
      handle_job o = { acked := false, errorEvent := none, dbFailedWrite := none }) := by
  constructor
  · intro a m ha hperm hprev
    interval_cases a
    · simp [handle_job, jobLoop, hperm]
    · obtain ⟨m0, h0⟩ := transientRaise_eq (o 0) (hprev 0 (by omega))
      simp [handle_job, jobLoop, h0, hperm]
    · obtain ⟨m0, h0⟩ := transientRaise_eq (o 0) (hprev 0 (by omega))
      obtain ⟨m1, h1⟩ := transientRaise_eq (o 1) (hprev 1 (by omega))
      simp [handle_job, jobLoop, h0, h1, hperm]
  · intro hall
    obtain ⟨m0, h0⟩ := transientRaise_eq (o 0) (hall 0 (by omega))
    obtain ⟨m1, h1⟩ := transientRaise_eq (o 1) (hall 1 (by omega))
    obtain ⟨m2, h2⟩ := transientRaise_eq (o 2) (hall 2 (by omega))
    simp [handle_job, jobLoop, h0, h1, h2]

/-- C2 witness: the amended theorem applied at concrete attempt outcomes. -/
theorem C2_amended_failure_handling_witness :
    handle_job (fun _ => AttemptOutcome.raises false "boom")
      = { acked := false, errorEvent := some "boom", dbFailedWrite := some "boom" }
    ∧ handle_job (fun _ => AttemptOutcome.raises true "net down")
      = { acked := false, errorEvent := none, dbFailedWrite := none } :=
  ⟨(C2_amended_failure_handling (fun _ => AttemptOutcome.raises false "boom")).1 0 "boom"
      (by omega) rfl (fun b hb => absurd hb (Nat.not_lt_zero b)),
   (C2_amended_failure_handling (fun _ => AttemptOutcome.raises true "net down")).2
      (fun _ _ => rfl)⟩

/-- The step-execution loop only ever appends step results whose `strategy`,
`self_healed` and `attempts` fields are the hard-coded
`"selector" / false / 1`. -/
theorem runSteps_step_results_const (env : EngineEnv) (url : String) :
    ∀ (steps : List Step) (k : Nat) (st : LoopState),
      (∀ sr ∈ st.step_results,
        sr.strategy = "selector" ∧ sr.self_healed = false ∧ sr.attempts = 1) →
      ∀ sr ∈ (runSteps env url steps k st).step_results,
        sr.strategy = "selector" ∧ sr.self_healed = false ∧ sr.attempts = 1 := by
  intro steps
  induction steps with
  | nil =>
    intro k st h sr hsr
    simp only [runSteps] at hsr
    exact h sr hsr
  | cons s rest ih =>
    intro k st h sr hsr
    simp only [runSteps] at hsr
    by_cases ht : TOTAL_TIMEOUT_SEC < env.elapsedBefore k
    · rw [if_pos ht] at hsr
      exact h sr hsr
    · rw [if_neg ht] at hsr
      have hnew : ∀ x ∈ st.step_results ++
          [({ step := k, status := (execute_action s.action (env.pageAt k) s url).status,
              strategy := "selector", self_healed := false,
              duration_ms := env.stepDurationMs k, attempts := 1,
              error := (execute_action s.action (env.pageAt k) s url).error } : StepResult)],
          x.strategy = "selector" ∧ x.self_healed = false ∧ x.attempts = 1 := by
        intro x hx
        rcases List.mem_append.mp hx with hx | hx
        · exact h x hx
        · rw [List.mem_singleton.mp hx]
          exact ⟨rfl, rfl, rfl⟩
      by_cases hfail : (execute_action s.action (env.pageAt k) s url).status = "failed"
      · rw [if_pos hfail] at hsr
        exact hnew sr hsr
      · rw [if_neg hfail] at hsr
        exact ih (k + 1) _ hnew sr hsr

/-- C4: every persisted step result of every run records
`strategy = "selector"`, `self_healed = false` and `attempts = 1`, whatever
the resolver actually did — the resolver's reported strategy, self-healing
flag and attempt count never reach the store. -/
theorem C4_persisted_step_results_hardcoded (env : EngineEnv) (steps : List Step)
    (url nm : String) (sr : StepResult)
    (hmem : sr ∈ (execute_test env steps url nm).step_results) :
    sr.strategy = "selector" ∧ sr.self_healed = false ∧ sr.attempts = 1 := by
  unfold execute_test at hmem
  by_cases hs : steps = []
  · rw [if_pos hs] at hmem
    simp at hmem
  · rw [if_neg hs] at hmem
    cases hv : firstValidationError steps 0 with
    | some ie =>
      rw [hv] at hmem
      simp at hmem
    | none =>
      rw [hv] at hmem
      cases hdb : env.dbRunning with
      | fail t m =>
        rw [hdb] at hmem
        simp at hmem
      | ok =>
        rw [hdb] at hmem
        cases hl : env.launch with
        | error e =>
          rw [hl] at hmem
          simp at hmem
        | ok u =>
          rw [hl] at hmem
          exact runSteps_step_results_const env url steps 0 {}
            (fun x hx => absurd hx (List.not_mem_nil x)) sr hmem

/-- C4 witness: the theorem applied to the head of a concrete run's results. -/
theorem C4_persisted_step_results_hardcoded_witness :
    ∃ sr ∈ (execute_test benignEnv [navStep] "https://example.com" "T").step_results,
      sr.strategy = "selector" ∧ sr.self_healed = false ∧ sr.attempts = 1 := by
  refine ⟨({ step := 0, status := "passed", strategy := "selector", self_healed := false,
             duration_ms := 5, attempts := 1, error := none } : StepResult), ?_, ?_⟩
  · decide
  · exact C4_persisted_step_results_hardcoded benignEnv [navStep] "https://example.com" "T"
      _ (by decide)

/-- Unfolding one passed step of the loop: when the deadline check is clear
and the step does not fail, the loop recurses with one more recorded step
result. -/
theorem runSteps_cons_pass (env : EngineEnv) (url : String) (s : Step)
    (rest : List Step) (k : Nat) (st : LoopState)
    (hok : ¬ TOTAL_TIMEOUT_SEC < env.elapsedBefore k)
    (hpass : ¬ (execute_action s.action (env.pageAt k) s url).status = "failed") :
    ∃ st' : LoopState,
      runSteps env url (s :: rest) k st = runSteps env url rest (k + 1) st'
      ∧ st'.step_results.length = st.step_results.length + 1 := by
  simp only [runSteps]
  rw [if_neg hok, if_neg hpass]
  exact ⟨_, rfl, by simp⟩

/-- If the first `i` remaining steps pass under their deadline checks and the
check before the `i`th remaining step reads past the deadline, the loop stops
there: timeout error, failing step `k + i`, and exactly `i` more step results
than it started with. -/
theorem runSteps_timeout (env : EngineEnv) (url : String) :
    ∀ (i : Nat) (steps : List Step) (k : Nat) (st : LoopState) (hi : i < steps.length),
      (∀ j (hj : j < i), env.elapsedBefore (k + j) ≤ TOTAL_TIMEOUT_SEC
        ∧ (execute_action (steps.get ⟨j, hj.trans hi⟩).action (env.pageAt (k + j))
            (steps.get ⟨j, hj.trans hi⟩) url).status = "passed") →
      TOTAL_TIMEOUT_SEC < env.elapsedBefore (k + i) →
      (runSteps env url steps k st).final_error
          = some "Total test timeout (5 min) exceeded"
      ∧ (runSteps env url steps k st).failed_step = some (k + i)
      ∧ (runSteps env url steps k st).step_results.length
          = st.step_results.length + i := by
  intro i
  induction i with
  | zero =>
    intro steps k st hi hprev ht
    cases steps with
    | nil => simp at hi
    | cons s rest =>
      simp only [runSteps]
      rw [if_pos (by simpa using ht)]
      exact ⟨rfl, by simp, by simp⟩
  | succ n ih =>
    intro steps k st hi hprev ht
    cases steps with
    | nil => simp at hi
    | cons s rest =>
      have h0 := hprev 0 (Nat.succ_pos n)
      have hok : ¬ TOTAL_TIMEOUT_SEC < env.elapsedBefore k := Nat.not_lt.mpr h0.1
      have hpass : ¬ (execute_action s.action (env.pageAt k) s url).status = "failed" := by
        have h02 : (execute_action s.action (env.pageAt k) s url).status = "passed" := h0.2
        rw [h02]
        decide
      obtain ⟨st', heq, hlen1⟩ := runSteps_cons_pass env url s rest k st hok hpass
      have hi' : n < rest.length := by
        simp only [List.length_cons] at hi
        omega
      have hprev' : ∀ j (hj : j < n),
          env.elapsedBefore (k + 1 + j) ≤ TOTAL_TIMEOUT_SEC
          ∧ (execute_action (rest.get ⟨j, hj.trans hi'⟩).action
              (env.pageAt (k + 1 + j)) (rest.get ⟨j, hj.trans hi'⟩) url).status
              = "passed" := by
        intro j hj
        have heqn : k + 1 + j = k + (j + 1) := by omega
        rw [heqn]
        exact hprev (j + 1) (Nat.succ_lt_succ hj)
      have ht' : TOTAL_TIMEOUT_SEC < env.elapsedBefore (k + 1 + n) := by
        have heqn : k + 1 + n = k + (n + 1) := by omega
        rw [heqn]
        exact ht
      obtain ⟨he, hf, hlen⟩ := ih rest (k + 1) st' hi' hprev' ht'
      rw [heq]
      refine ⟨he, ?_, ?_⟩
      · rw [hf]
        congr 1
        omega
      · rw [hlen, hlen1]
        omega

/-- C6: whenever the engine's cooperative deadline check before a remaining
step observes more than `TOTAL_TIMEOUT_SEC = 300` seconds elapsed since run
start (earlier checks being in budget and earlier steps having passed), the
engine executes no further steps — exactly the earlier steps have results —
and the run terminates failed with the total-timeout error attributed to the
step about to run. -/
theorem C6_total_run_deadline (env : EngineEnv) (steps : List Step)
    (url nm : String) (i : Nat) (hi : i < steps.length)
    (hval : firstValidationError steps 0 = none)
    (hdb : env.dbRunning = DbBehavior.ok)
    (hlaunch : env.launch = Except.ok ())
    (hprev : ∀ j (hj : j < i), env.elapsedBefore j ≤ TOTAL_TIMEOUT_SEC
      ∧ (execute_action (steps.get ⟨j, hj.trans hi⟩).action (env.pageAt j)
          (steps.get ⟨j, hj.trans hi⟩) url).status = "passed")
    (ht : TOTAL_TIMEOUT_SEC < env.elapsedBefore i) :
    (execute_test env steps url nm).status = "failed"
    ∧ (execute_test env steps url nm).error
        = some "Total test timeout (5 min) exceeded"
    ∧ (execute_test env steps url nm).failed_step = some i
    ∧ (execute_test env steps url nm).step_results.length = i := by
  have hne : ¬ steps = [] := by
    intro h
    rw [h] at hi
    simp at hi
  have hrs := runSteps_timeout env url i steps 0 {}
    hi (by simpa using hprev) (by simpa using ht)
  unfold execute_test
  rw [if_neg hne, hval, hdb, hlaunch]
  rw [Nat.zero_add] at hrs
  refine ⟨?_, ?_, ?_, ?_⟩
  · show (match (runSteps env url steps 0 {}).final_error with
      | none => "passed" | some _ => "failed") = "failed"
    rw [hrs.1]
  · exact hrs.1
  · exact hrs.2.1
  · simpa using hrs.2.2

/-- A two-step environment whose clock reads 301 s before the second step. -/
def slowEnv : EngineEnv :=
  { benignEnv with elapsedBefore := fun j => if j = 0 then 0 else 301 }

/-- C6 witness: the theorem applied to a concrete run that times out before
its second step. -/
theorem C6_total_run_deadline_witness :
    (execute_test slowEnv [navStep, navStep] "https://example.com" "T").status
      = "failed"
    ∧ (execute_test slowEnv [navStep, navStep] "https://example.com" "T").failed_step
      = some 1 :=
  have h := C6_total_run_deadline slowEnv [navStep, navStep] "https://example.com" "T" 1
    (by decide) (by decide) rfl rfl
    (by
      intro j hj
      have hj0 : j = 0 := by omega
      subst hj0
      exact ⟨by decide, rfl⟩)
    (by decide)
  ⟨h.1, h.2.2.1⟩

/-- Modelled from the claim: a step is invalid when its action is missing or
unrecognized, a click/fill has no resolvable target (neither a usable explicit
selector nor an instruction the Semantic strategy can extract target text
from), or a verify has empty/whitespace expected text. -/
def claimInvalidStep (s : Step) : Prop :=
  s.action = ""
  ∨ (["navigate", "click", "fill", "verify"].contains s.action) = false
  ∨ ((s.action = "click" ∨ s.action = "fill") ∧ pyStrip s.advanced_selector = ""
      ∧ extract_target_text (pyStrip s.instruction) = "")
  ∨ (s.action = "verify" ∧ pyStrip s.expected = "")

/-- A claim-invalid step is rejected by `_validate_step` at every index. -/
theorem claimInvalid_validate (s : Step) (i : Nat) (h : claimInvalidStep s) :
    ¬ _validate_step s i = none := by
  intro hnone
  unfold _validate_step at hnone
  rcases h with h | h | ⟨h1, h2, _h3⟩ | ⟨h1, h2⟩
  · rw [h] at hnone
    simp at hnone
  · by_cases ha : s.action = ""
    · rw [ha] at hnone
      simp at hnone
    · rw [if_neg ha, h] at hnone
      simp at hnone
  · rcases h1 with h1 | h1 <;> rw [h1] at hnone
    · rw [if_neg (by decide), if_neg (by decide), if_neg (by decide),
        if_pos rfl, if_pos h2] at hnone
      exact Option.noConfusion hnone
    · rw [if_neg (by decide), if_neg (by decide), if_neg (by decide),
        if_neg (by decide), if_pos rfl, if_pos h2] at hnone
      exact Option.noConfusion hnone
  · rw [h1] at hnone
    rw [if_neg (by decide), if_neg (by decide), if_neg (by decide),
      if_neg (by decide), if_neg (by decide), if_pos h2] at hnone
    exact Option.noConfusion hnone

/-- If some member of the list is claim-invalid, the validation loop reports
an error. -/
theorem firstValidationError_isSome :
    ∀ (steps : List Step) (i : Nat) (s : Step), s ∈ steps →
      claimInvalidStep s → (firstValidationError steps i).isSome = true := by
  intro steps
  induction steps with
  | nil =>
    intro i s hs _
    simp at hs
  | cons t rest ih =>
    intro i s hs hinv
    rw [firstValidationError]
    cases hv : _validate_step t i with
    | some e => rfl
    | none =>
      rcases List.mem_cons.mp hs with h | h
      · subst h
        exact absurd hv (claimInvalid_validate s i hinv)
      · exact ih (i + 1) s h hinv

/-- C5: any run whose step list contains an invalid step (missing/unknown
action, click/fill without a resolvable target, verify with empty expected
text) fails during validation: the validation error is its terminal error and
its only event, zero steps execute, and the browser block is never entered. -/
theorem C5_validation_fails_fast (env : EngineEnv) (steps : List Step)
    (url nm : String) (s : Step) (hmem : s ∈ steps) (hinv : claimInvalidStep s) :
    (execute_test env steps url nm).status = "failed"
    ∧ (execute_test env steps url nm).step_results = []
    ∧ (execute_test env steps url nm).browserOpened = false
    ∧ ∃ i err, firstValidationError steps 0 = some (i, err)
        ∧ (execute_test env steps url nm).error = some err
        ∧ (execute_test env steps url nm).trace = [validationErrorEvent err i] := by
  have hne : ¬ steps = [] := by
    rintro rfl
    simp at hmem
  obtain ⟨⟨i, err⟩, hv⟩ :=
    Option.isSome_iff_exists.mp (firstValidationError_isSome steps 0 s hmem hinv)
  unfold execute_test
  rw [if_neg hne, hv]
  exact ⟨rfl, rfl, rfl, i, err, rfl, rfl, rfl⟩

/-- C5 witness: the theorem applied to a run with a whitespace-expected verify
step. -/
theorem C5_validation_fails_fast_witness :
    (execute_test benignEnv [{ action := "verify", expected := " " }] "u" "T").status
      = "failed"
    ∧ (execute_test benignEnv [{ action := "verify", expected := " " }] "u" "T").browserOpened
      = false :=
  have h := C5_validation_fails_fast benignEnv [{ action := "verify", expected := " " }]
    "u" "T" { action := "verify", expected := " " } (by simp)
    (Or.inr (Or.inr (Or.inr ⟨rfl, by decide⟩)))
  ⟨h.1, h.2.2.1⟩

/-- The step-execution loop appends only `log` and `screenshot` events. -/
theorem runSteps_trace_types (env : EngineEnv) (url : String) :
    ∀ (steps : List Step) (k : Nat) (st : LoopState),
      (∀ e ∈ st.trace, e.type = "log" ∨ e.type = "screenshot") →
      ∀ e ∈ (runSteps env url steps k st).trace,
        e.type = "log" ∨ e.type = "screenshot" := by
  intro steps
  induction steps with
  | nil =>
    intro k st h e he
    simp only [runSteps] at he
    exact h e he
  | cons s rest ih =>
    intro k st h e he
    simp only [runSteps] at he
    by_cases ht : TOTAL_TIMEOUT_SEC < env.elapsedBefore k
    · rw [if_pos ht] at he
      exact h e he
    · rw [if_neg ht] at he
      have hbase : ∀ x ∈ (st.trace ++ [execLogEvent k s])
          ++ [stepDoneEvent k (execute_action s.action (env.pageAt k) s url)
                (env.stepDurationMs k)],
          x.type = "log" ∨ x.type = "screenshot" := by
        intro x hx
        rcases List.mem_append.mp hx with hx | hx
        · rcases List.mem_append.mp hx with hx | hx
          · exact h x hx
          · rw [List.mem_singleton.mp hx]
            exact Or.inl rfl
        · rw [List.mem_singleton.mp hx]
          exact Or.inl rfl
      cases hshot : env.shotAt k with
      | some u =>
        rw [hshot] at he
        have hfull : ∀ x ∈ ((st.trace ++ [execLogEvent k s])
            ++ [stepDoneEvent k (execute_action s.action (env.pageAt k) s url)
                  (env.stepDurationMs k)]) ++ [shotEvent k u],
            x.type = "log" ∨ x.type = "screenshot" := by
          intro x hx
          rcases List.mem_append.mp hx with hx | hx
          · exact hbase x hx
          · rw [List.mem_singleton.mp hx]
            exact Or.inr rfl
        by_cases hfail : (execute_action s.action (env.pageAt k) s url).status = "failed"
        · rw [if_pos hfail] at he
          exact hfull e he
        · rw [if_neg hfail] at he
          exact ih (k + 1) _ hfull e he
      | none =>
        rw [hshot] at he
        by_cases hfail : (execute_action s.action (env.pageAt k) s url).status = "failed"
        · rw [if_pos hfail] at he
          exact hbase e he
        · rw [if_neg hfail] at he
          exact ih (k + 1) _ hbase e he

/-- C10: once a run passes validation and enters step execution, the engine
appends no `error`-typed event at all, and when it reaches its terminal append
(the `running` update did not raise) the last event it appends is a `complete`
event whose payload carries the final status, which is `passed` or `failed`. -/
theorem C10_engine_terminal_is_complete (env : EngineEnv) (steps : List Step)
    (url nm : String) (hval : firstValidationError steps 0 = none)
    (hne : steps ≠ []) :
    (∀ e ∈ (execute_test env steps url nm).trace, ¬ e.type = "error")
    ∧ (env.dbRunning = DbBehavior.ok →
      ∃ e : RunEvent, (execute_test env steps url nm).trace.getLast? = some e
        ∧ e.type = "complete"
        ∧ e.data.status = (execute_test env steps url nm).status
        ∧ ((execute_test env steps url nm).status = "passed"
            ∨ (execute_test env steps url nm).status = "failed")) := by
  unfold execute_test
  rw [if_neg hne, hval]
  cases hdb : env.dbRunning with
  | fail t m =>
    constructor
    · intro e he hcontra
      rw [List.mem_singleton.mp he] at hcontra
      exact absurd (show ("log" : String) = "error" from hcontra) (by decide)
    · intro hok
      exact DbBehavior.noConfusion hok
  | ok =>
    have htr : ∀ x ∈ (match env.launch with
        | Except.ok _ => runSteps env url steps 0 {}
        | Except.error e =>
          { ({} : LoopState) with final_error := some e, failed_step := some 0 }).trace,
        x.type = "log" ∨ x.type = "screenshot" := by
      cases hl : env.launch with
      | ok u =>
        exact runSteps_trace_types env url steps 0 {}
          (fun x hx => absurd hx (List.not_mem_nil x))
      | error msg =>
        intro x hx
        exact absurd hx (List.not_mem_nil x)
    constructor
    · intro e he hcontra
      rcases List.mem_append.mp he with he | he
      · rcases List.mem_append.mp he with he | he
        · rw [List.mem_singleton.mp he] at hcontra
          exact absurd (show ("log" : String) = "error" from hcontra) (by decide)
        · rcases htr e he with h | h <;> rw [hcontra] at h <;>
            exact absurd h (by decide)
      · rw [List.mem_singleton.mp he] at hcontra
        exact absurd (show ("complete" : String) = "error" from hcontra) (by decide)
    · intro _
      refine ⟨_, List.getLast?_concat _, rfl, rfl, ?_⟩
      have hstat : ∀ o : Option String,
          (match o with | none => "passed" | some _ => "failed") = "passed"
          ∨ (match o with | none => "passed" | some _ => "failed") = "failed" := by
        intro o
        cases o
        · exact Or.inl rfl
        · exact Or.inr rfl
      exact hstat _

/-- C10 witness: the theorem applied to a concrete passing run and the start
event of its trace. -/
theorem C10_engine_terminal_is_complete_witness :
    ¬ (startLogEvent "T").type = "error" :=
  (C10_engine_terminal_is_complete benignEnv [navStep] "https://example.com" "T"
    rfl (by decide)).1 (startLogEvent "T") (by decide)

/-- C3 counterexample: the claim — once a `complete`/`error` event is appended
to a run's log, no further events are ever appended, including across
worker-level retries — is false.  When the engine's terminal database update
raises a transient error after the `complete` event was already appended, the
worker retries the job, re-running the engine, which appends a fresh start
log, step logs, and a second `complete` after the first one (here the event at
position 3 of 8 is `complete` yet position 4 exists). -/
theorem C3_terminal_closure_counterexample :
    ¬ (∀ (envAt : Nat → EngineEnv) (steps : List Step) (url nm : String)
        (i j : Nat) (hi : i < (worker_run_log envAt steps url nm).length)
        (hj : j < (worker_run_log envAt steps url nm).length),
        ((worker_run_log envAt steps url nm).get ⟨i, hi⟩).type = "complete"
          ∨ ((worker_run_log envAt steps url nm).get ⟨i, hi⟩).type = "error" →
        j ≤ i) := by
  intro h
  have hc := h (fun a => if a = 0 then dbFlakyEnv else benignEnv) [navStep]
    "https://example.com" "T" 3 4 (by decide) (by decide) (Or.inl (by decide))
  omega

/-- Any member of a list of naturals is bounded by its `foldr max 0`. -/
theorem le_foldr_max (x : Nat) : ∀ l : List Nat, x ∈ l → x ≤ l.foldr max 0 := by
  intro l
  induction l with
  | nil =>
    intro h
    simp at h
  | cons a t ih =>
    intro h
    rcases List.mem_cons.mp h with h | h
    · subst h
      exact le_max_left _ _
    · exact le_trans (ih h) (le_max_right _ _)

/-- Redis assigns the next entry a strictly larger id than every existing
entry. -/
theorem id_lt_nextEventId (log : List (Nat × RunEvent)) :
    ∀ p ∈ log, p.1 < nextEventId log := by
  intro p hp
  exact Nat.lt_succ_of_le (le_foldr_max p.1 _ (List.mem_map_of_mem Prod.fst hp))

/-- Appending one event preserves strictly increasing ids. -/
theorem append_run_event_sorted (log : List (Nat × RunEvent)) (e : RunEvent)
    (h : log.Pairwise (fun p q => p.1 < q.1)) :
    (append_run_event log e).Pairwise (fun p q => p.1 < q.1) := by
  unfold append_run_event
  refine List.pairwise_append.mpr ⟨h, List.pairwise_singleton _ _, ?_⟩
  intro a ha b hb
  rw [List.mem_singleton.mp hb]
  exact id_lt_nextEventId log a ha

/-- Appending a whole trace preserves strictly increasing ids. -/
theorem appendTrace_sorted (tr : List RunEvent) :
    ∀ log : List (Nat × RunEvent), log.Pairwise (fun p q => p.1 < q.1) →
      (appendTrace log tr).Pairwise (fun p q => p.1 < q.1) := by
  induction tr with
  | nil =>
    intro log h
    exact h
  | cons e rest ih =>
    intro log h
    exact ih _ (append_run_event_sorted log e h)

/-- All but the last of the events appended by one engine execution are `log`
or `screenshot` events — the terminal event is only ever last within one
execution. -/
theorem execute_test_dropLast_types (env : EngineEnv) (steps : List Step)
    (url nm : String) :
    ∀ e ∈ (execute_test env steps url nm).trace.dropLast,
      e.type = "log" ∨ e.type = "screenshot" := by
  have key : ∀ (pre mid : List RunEvent) (lastE : RunEvent),
      (∀ x ∈ pre, x.type = "log" ∨ x.type = "screenshot") →
      (∀ x ∈ mid, x.type = "log" ∨ x.type = "screenshot") →
      ∀ e ∈ ((pre ++ mid) ++ [lastE]).dropLast,
        e.type = "log" ∨ e.type = "screenshot" := by
    intro pre mid lastE h1 h2 e he
    rw [List.dropLast_concat] at he
    rcases List.mem_append.mp he with h | h
    · exact h1 _ h
    · exact h2 _ h
  unfold execute_test
  by_cases hs : steps = []
  · rw [if_pos hs]
    intro e he
    simp at he
  · rw [if_neg hs]
    cases hv : firstValidationError steps 0 with
    | some ie =>
      intro e he
      simp at he
    | none =>
      cases hdb : env.dbRunning with
      | fail t m =>
        intro e he
        simp at he
      | ok =>
        have htr : ∀ x ∈ (match env.launch with
            | Except.ok _ => runSteps env url steps 0 {}
            | Except.error e =>
              { ({} : LoopState) with final_error := some e,
                                      failed_step := some 0 }).trace,
            x.type = "log" ∨ x.type = "screenshot" := by
          cases hl : env.launch with
          | ok u =>
            exact runSteps_trace_types env url steps 0 {}
              (fun x hx => absurd hx (List.not_mem_nil x))
          | error msg =>
            intro x hx
            exact absurd hx (List.not_mem_nil x)
        exact key [startLogEvent nm] _ _
          (fun x hx => by
            rw [List.mem_singleton.mp hx]
            exact Or.inl rfl)
          htr

/-- C3 amended: reading a run's stream always yields strictly increasing ids,
and within one engine execution the terminal event is the last event that
execution appends (everything before it is a `log` or `screenshot` event).
The original claim's "no further events ever, including worker-level retries"
fails: a transient failure of the terminal database update makes the worker
re-run the engine, appending further events after the first `complete`. -/
theorem C3_amended_terminal_events (env : EngineEnv) (steps : List Step)
    (url nm : String) (log : List (Nat × RunEvent)) :
    (log.Pairwise (fun p q => p.1 < q.1) →
      (appendTrace log (execute_test env steps url nm).trace).Pairwise
        (fun p q => p.1 < q.1))
    ∧ ∀ e ∈ (execute_test env steps url nm).trace.dropLast,
        e.type = "log" ∨ e.type = "screenshot" :=
  ⟨appendTrace_sorted _ log, execute_test_dropLast_types env steps url nm⟩

/-- C3 witness: the amended theorem applied to a concrete run appended to the
empty stream. -/
theorem C3_amended_terminal_events_witness :
    (appendTrace []
      (execute_test benignEnv [navStep] "https://example.com" "T").trace).Pairwise
      (fun p q => p.1 < q.1) :=
  (C3_amended_terminal_events benignEnv [navStep] "https://example.com" "T" []).1
    List.Pairwise.nil

end AQ
